import Mathlib

/-!
# Verification of the YokeFlow session orchestrator and prompt-improvement analyzer

Shallow embedding of the parts of the repository that the checked claims
concern: session admission in `AgentOrchestrator.start_session`, the coding
auto-continue loops (`AgentOrchestrator.start_coding_sessions`,
`orchestrate_agent`, and the legacy API auto-continue loop), the post-session
quality hooks, the deep-review trigger policy, theme aggregation and proposal
confidence in `PromptImprovementAnalyzer`, the `apply_proposal` API route,
and `stop_session`.

Store operations (`database.py`) and `review_client.py` are not part of the
given sources; where a claim depends on them the definitions are modelled
from the specification and marked as such in their doc comments.
-/

namespace YokeFlow

/-! ## Session rows and admission (orchestrator.start_session, lines 575-653) -/

/-- A session row for one project, with the attributes the admission path
reads: the session number, its status string, and its started-at time
(kept abstract as a string, as it is only interpolated into the busy
message). -/
structure SessionRow where
  number : Nat
  status : String
  startedAt : String
deriving Repr, DecidableEq

/-- Modelled from the spec: `database.py` is not among the given sources.
Spec 4.1: `get_active_session(project)` returns the single running session
or nothing. -/
def getActiveSession (rows : List SessionRow) : Option SessionRow :=
  rows.find? (fun r => r.status == "running")

/-- Modelled from the spec: `database.py` is not among the given sources.
Spec 3 / 4.1: the allocator picks `max(number)+1`; session number 0 is the
first row per project. -/
def nextSessionNumber (rows : List SessionRow) : Nat :=
  match rows with
  | [] => 0
  | _ => (rows.map (fun r => r.number)).foldr max 0 + 1

/-- The conflict message built at orchestrator.py lines 585-589 when an
active session is present. -/
def busyMessage (s : SessionRow) : String :=
  "Cannot start new session: Session " ++ toString s.number ++
    " is already running (started " ++ s.startedAt ++
    "). Wait for it to complete or stop it first."

/-- Admission phase of `AgentOrchestrator.start_session` (orchestrator.py
lines 581-653 together with the `db.start_session` transition at line 735):
reject with the busy message when an active session exists; otherwise
allocate the next session row, which is then moved to `running` when the
session launches.  Returns the resulting row list and either the error
message or the allocated session number. -/
def startSessionAdmit (rows : List SessionRow) (startedAt : String) :
    List SessionRow × Except String Nat :=
  match getActiveSession rows with
  | some s => (rows, Except.error (busyMessage s))
  | none =>
      let n := nextSessionNumber rows
      (rows ++ [⟨n, "running", startedAt⟩], Except.ok n)

/-- Number of rows in status `running`. -/
def runningCount (rows : List SessionRow) : Nat :=
  rows.countP (fun r => r.status == "running")

theorem getActiveSession_none_iff (rows : List SessionRow) :
    getActiveSession rows = none ↔ ∀ r ∈ rows, r.status ≠ "running" := by
  unfold getActiveSession
  rw [List.find?_eq_none]
  constructor
  · intro h r hr
    have := h r hr
    simpa using this
  · intro h r hr
    simpa using h r hr

theorem runningCount_eq_zero_of_none (rows : List SessionRow)
    (h : getActiveSession rows = none) : runningCount rows = 0 := by
  rw [getActiveSession_none_iff] at h
  unfold runningCount
  rw [List.countP_eq_zero]
  intro r hr
  simpa using h r hr

/-- C1: when the store reports an active session, `start_session` rejects
with a conflict message containing the active session number and started-at
time and allocates no new row; consequently at most one session per project
is running after the step whenever at most one was running before. -/
theorem C1_single_active_session (rows : List SessionRow) (startedAt : String) :
    (∀ s, getActiveSession rows = some s →
      (startSessionAdmit rows startedAt).1 = rows ∧
      (startSessionAdmit rows startedAt).2 = Except.error (busyMessage s) ∧
      (∃ a b, busyMessage s = a ++ toString s.number ++ b) ∧
      (∃ a b, busyMessage s = a ++ s.startedAt ++ b)) ∧
    (runningCount rows ≤ 1 →
      runningCount (startSessionAdmit rows startedAt).1 ≤ 1) := by
  constructor
  · intro s hs
    refine ⟨?_, ?_, ?_, ?_⟩
    · simp [startSessionAdmit, hs]
    · simp [startSessionAdmit, hs]
    · exact ⟨"Cannot start new session: Session ",
        " is already running (started " ++ s.startedAt ++
          "). Wait for it to complete or stop it first.",
        by simp [busyMessage, String.append_assoc]⟩
    · exact ⟨"Cannot start new session: Session " ++ toString s.number ++
          " is already running (started ",
        "). Wait for it to complete or stop it first.",
        by simp [busyMessage, String.append_assoc]⟩
  · intro _
    unfold startSessionAdmit
    cases hact : getActiveSession rows with
    | some s =>
        simpa [hact, runningCount] using
          (by simpa [runningCount] using ‹runningCount rows ≤ 1›)
    | none =>
        have hz : runningCount rows = 0 := runningCount_eq_zero_of_none rows hact
        simp only [hact]
        unfold runningCount at hz ⊢
        rw [List.countP_append, hz]
        simp

/-- Witness for C1 at a concrete store state with a running session. -/
theorem C1_single_active_session_witness :
    ((startSessionAdmit [⟨3, "running", "2026-01-01T00:00:00"⟩] "later").1
        = [⟨3, "running", "2026-01-01T00:00:00"⟩] ∧
      (startSessionAdmit [⟨3, "running", "2026-01-01T00:00:00"⟩] "later").2
        = Except.error (busyMessage ⟨3, "running", "2026-01-01T00:00:00"⟩) ∧
      (∃ a b, busyMessage ⟨3, "running", "2026-01-01T00:00:00"⟩
        = a ++ toString (3 : Nat) ++ b) ∧
      (∃ a b, busyMessage ⟨3, "running", "2026-01-01T00:00:00"⟩
        = a ++ "2026-01-01T00:00:00" ++ b)) ∧
    runningCount (startSessionAdmit [⟨3, "running", "2026-01-01T00:00:00"⟩]
      "later").1 ≤ 1 := by
  have h := C1_single_active_session
    [⟨3, "running", "2026-01-01T00:00:00"⟩] "later"
  exact ⟨h.1 ⟨3, "running", "2026-01-01T00:00:00"⟩ (by decide),
    h.2 (by decide)⟩

/-! ## Deep-review trigger policy (review_client.should_trigger_deep_review) -/

/-- Modelled from the spec: `review_client.py` is not among the given
sources (orchestrator.py line 1091 imports `should_trigger_deep_review`
from it, and tests/test_review_phase2.py exercises it).  Spec 4.6 trigger
policy, with the recorded deep-review state abstracted as
`lastDeepReviewed` (`none` when no deep review is recorded yet for the
project, `some m` when the last deep-reviewed session number is `m`):
1. trigger if `session_number % 5 == 0` and `session_number >= 5`;
2. trigger if no deep review recorded yet and `session_number >= 5`;
3. trigger if `session_number - last_deep_reviewed_number >= 5`;
4. trigger if the quick quality rating is `< 7`. -/
def should_trigger_deep_review (sessionNumber : Nat)
    (lastDeepReviewed : Option Nat) (quality : Int) : Bool :=
  (sessionNumber % 5 == 0 && 5 ≤ sessionNumber)
    || (lastDeepReviewed.isNone && 5 ≤ sessionNumber)
    || (match lastDeepReviewed with
        | some m => 5 ≤ sessionNumber - m
        | none => false)
    || quality < 7

/-- C2: the deep-review trigger fires exactly when one of the four spec
rules holds; in particular session 4 with quality 8 does not fire and
session 5 fires. -/
theorem C2_deep_review_trigger (n : Nat) (last : Option Nat) (q : Int) :
    (should_trigger_deep_review n last q = true ↔
      (n % 5 = 0 ∧ 5 ≤ n) ∨ (last = none ∧ 5 ≤ n) ∨
      (∃ m, last = some m ∧ 5 ≤ n - m) ∨ q < 7) ∧
    should_trigger_deep_review 4 last 8 = false ∧
    should_trigger_deep_review 5 last 8 = true := by
  refine ⟨?_, ?_, ?_⟩
  · unfold should_trigger_deep_review
    cases last with
    | none => simp [Option.isNone]; tauto
    | some m => simp [Option.isNone]; tauto
  · unfold should_trigger_deep_review
    cases last with
    | none => decide
    | some m =>
        simp only [Option.isNone]
        have h1 : ((4 : Nat) % 5 == 0 && 5 ≤ (4 : Nat)) = false := by decide
        have h2 : (5 ≤ 4 - m) = False := by
          simp only [eq_iff_iff, iff_false]
          omega
        simp [h1, h2]
  · unfold should_trigger_deep_review
    cases last with
    | none => decide
    | some m => simp

/-! ## Theme confidence (prompt_improvement_analyzer.py lines 846-869 and
line 664) -/

/-- The fields of an aggregated theme that
`PromptImprovementAnalyzer._calculate_theme_confidence` reads.  The average
quality is a ratio of integer ratings, embedded as a rational. -/
structure ThemeData where
  frequency : Nat
  unique_sessions : Nat
  avg_quality : Rat
deriving Repr

/-- The function `PromptImprovementAnalyzer._calculate_theme_confidence`
(prompt_improvement_analyzer.py lines 846-869). -/
def calculate_theme_confidence (t : ThemeData) : Nat :=
  let base :=
    if 5 ≤ t.unique_sessions then 9
    else if 3 ≤ t.unique_sessions then 7
    else if 2 ≤ t.unique_sessions then 5
    else 3
  if 9 ≤ t.avg_quality then min 10 (base + 1)
  else if t.avg_quality < 6 then max 1 (base - 1)
  else base

/-- Confidence level stored on a theme-based proposal: the Claude-enhanced
branch boosts by one and caps at 10 (prompt_improvement_analyzer.py line
664), the fallback branch stores the theme confidence unchanged (line
685). -/
def themeProposalConfidence (claudeEnhanced : Bool) (t : ThemeData) : Nat :=
  if claudeEnhanced then min 10 (calculate_theme_confidence t + 1)
  else calculate_theme_confidence t

/-- The confidence value as the claim words it: buckets
`unique sessions <= 2 -> 3, <= 3 -> 5, <= 5 -> 7, otherwise 9`, plus one at
the high quality extreme, minus one at the low extreme, plus one when
Claude-enhanced, clamped to 1-10. -/
def claimedThemeConfidence (t : ThemeData) (claudeEnhanced : Bool) : Nat :=
  let base :=
    if t.unique_sessions ≤ 2 then 3
    else if t.unique_sessions ≤ 3 then 5
    else if t.unique_sessions ≤ 5 then 7
    else 9
  min 10 (max 1 (base + (if 9 ≤ t.avg_quality then 1 else 0)
    - (if t.avg_quality < 6 then 1 else 0)
    + (if claudeEnhanced then 1 else 0)))

/-- C3 counterexample: a theme mentioned by exactly 2 unique sessions at
average quality 7 gets confidence 5 from the code, while the claimed
buckets give 3. -/
theorem C3_counterexample :
    themeProposalConfidence false ⟨2, 2, 7⟩ = 5 ∧
    claimedThemeConfidence ⟨2, 2, 7⟩ false = 3 ∧
    themeProposalConfidence false ⟨2, 2, 7⟩ ≠
      claimedThemeConfidence ⟨2, 2, 7⟩ false := by
  refine ⟨?_, ?_, ?_⟩ <;>
    · simp only [themeProposalConfidence, calculate_theme_confidence,
        claimedThemeConfidence]
      norm_num

/-- C3 amended: the bucket thresholds are inclusive lower bounds
(`>= 5 -> 9`, `>= 3 -> 7`, `>= 2 -> 5`, else 3; equivalently
`<= 1 -> 3`, `= 2 -> 5`, `3..4 -> 7`, `>= 5 -> 9`); the quality extremes
adjust by plus or minus one, Claude enhancement adds one, and the result is
clamped to 1-10. -/
theorem C3_theme_confidence (freq us : Nat) (aq : Rat) (c : Bool) :
    themeProposalConfidence c ⟨freq, us, aq⟩ =
      min 10 (max 1
        ((if 5 ≤ us then 9 else if 3 ≤ us then 7 else if 2 ≤ us then 5 else 3)
          + (if 9 ≤ aq then 1 else 0) - (if aq < 6 then 1 else 0)
          + (if c then 1 else 0))) ∧
    1 ≤ themeProposalConfidence c ⟨freq, us, aq⟩ ∧
    themeProposalConfidence c ⟨freq, us, aq⟩ ≤ 10 := by
  unfold themeProposalConfidence calculate_theme_confidence
  refine ⟨?_, ?_, ?_⟩ <;>
    · simp only
      split_ifs <;> first | omega | linarith

/-! ## Auto-continue loops (orchestrator.py lines 405-542 and 1303-1393,
api/main.py lines 1276-1340) -/

/-- Terminal status of one session as observed by the loops. -/
inductive SessStatus
  | completed
  | error
  | interrupted
deriving Repr, DecidableEq

/-- Events the coding loop publishes through the orchestrator event
callback.  `autoContinueStopped` is listed because the claim asserts it is
published; the proofs show this loop never emits it. -/
inductive LoopEvent
  | autoContinueDelay
  | allEpicsComplete
  | projectComplete
  | sessionStarted (iteration : Nat)
  | autoContinueStopped (reason : String)
deriving Repr, DecidableEq

/-- External observations made during one iteration of
`start_coding_sessions`: the `stop_after_current` flag value read at the
top of the iteration, whether all epics were complete at that check, the
terminal status of the session the iteration runs, and whether all tasks
were complete after it. -/
structure IterInput where
  stopFlag : Bool
  epicsDone : Bool
  result : SessStatus
  tasksDone : Bool
deriving Repr, DecidableEq

/-- What a run of the coding loop produced: how many sessions it started,
the events it published, and its final write to the per-project
`stop_after_current` flag (`some false` when the loop cleared it). -/
structure LoopResult where
  sessionsStarted : Nat
  events : List LoopEvent
  flagWrite : Option Bool
deriving Repr, DecidableEq

/-- The iteration-limit guard shared by all three loops:
`max_iterations is not None and iteration >= max_iterations`. -/
def limitReached (maxIterations : Option Nat) (iteration : Nat) : Bool :=
  match maxIterations with
  | none => false
  | some m => m ≤ iteration

/-- Body of the `while True` loop of
`AgentOrchestrator.start_coding_sessions` (orchestrator.py lines 458-542),
driven by the per-iteration observations; the input list bounds how many
iterations the environment provides. -/
def codingLoopGo (mi : Option Nat) (iteration : Nat) :
    List IterInput → LoopResult
  | [] => ⟨0, [], none⟩
  | inp :: rest =>
    if limitReached mi iteration then ⟨0, [], none⟩
    else if inp.stopFlag then ⟨0, [], some false⟩
    else if inp.epicsDone then ⟨0, [LoopEvent.allEpicsComplete], none⟩
    else
      let it := iteration + 1
      let pre := (if 1 < it then [LoopEvent.autoContinueDelay] else [])
        ++ [LoopEvent.sessionStarted it]
      if inp.result ≠ SessStatus.completed then ⟨1, pre, none⟩
      else if inp.tasksDone then ⟨1, pre ++ [LoopEvent.projectComplete], none⟩
      else
        let r := codingLoopGo mi it rest
        ⟨1 + r.sessionsStarted, pre ++ r.events, r.flagWrite⟩

/-- The normalization at orchestrator.py lines 450-452: 0 and None both
mean unlimited. -/
def normalizeMaxIterations (mi : Option Nat) : Option Nat :=
  match mi with
  | none => none
  | some 0 => none
  | some m => some m

/-- The `AgentOrchestrator.start_coding_sessions` auto-continue loop,
after normalizing `max_iterations`. -/
def start_coding_sessions (maxIterations : Option Nat)
    (inputs : List IterInput) : LoopResult :=
  codingLoopGo (normalizeMaxIterations maxIterations) 0 inputs

/-- The auto-continue loop of `orchestrate_agent` (orchestrator.py lines
1339-1386): no normalization of `max_iterations`; returns the number of
sessions started given a stream of session outcomes. -/
def orchestrateAgentLoop (mi : Option Nat) (iteration : Nat) :
    List SessStatus → Nat
  | [] => 0
  | r :: rest =>
    if limitReached mi iteration then 0
    else 1 + (if r = SessStatus.completed
      then orchestrateAgentLoop mi (iteration + 1) rest else 0)

/-- Events published by the legacy `/sessions/start` auto-continue loop. -/
inductive LegacyEvent
  | autoContinueDelay
  | sessionCompleted (iteration : Nat)
  | autoContinueStopped (reason : String)
deriving Repr, DecidableEq

/-- The legacy auto-continue loop in the deprecated
`/api/projects/.../sessions/start` endpoint (api/main.py lines 1276-1340):
same unnormalized guard, publishing `auto_continue_stopped` with a reason
when it stops on the limit or on a failed session. -/
def legacyAutoContinueLoop (mi : Option Nat) (iteration : Nat) :
    List SessStatus → Nat × List LegacyEvent
  | [] => (0, [])
  | r :: rest =>
    if limitReached mi iteration then
      (0, [LegacyEvent.autoContinueStopped "max_iterations_reached"])
    else
      let it := iteration + 1
      let pre := if 1 < it then [LegacyEvent.autoContinueDelay] else []
      match r with
      | SessStatus.completed =>
          let res := legacyAutoContinueLoop mi it rest
          (res.1 + 1, pre ++ [LegacyEvent.sessionCompleted it] ++ res.2)
      | SessStatus.error =>
          (1, pre ++ [LegacyEvent.sessionCompleted it,
            LegacyEvent.autoContinueStopped "session_error"])
      | SessStatus.interrupted =>
          (1, pre ++ [LegacyEvent.sessionCompleted it,
            LegacyEvent.autoContinueStopped "session_interrupted"])

theorem orchestrateAgentLoop_none_all_completed (rs : List SessStatus) :
    ∀ it, (∀ r ∈ rs, r = SessStatus.completed) →
      orchestrateAgentLoop none it rs = rs.length := by
  induction rs with
  | nil => intro it _; rfl
  | cons r rest ih =>
      intro it h
      have hr : r = SessStatus.completed := h r (List.mem_cons_self r rest)
      have ihr := ih (it + 1) (fun x hx => h x (List.mem_cons_of_mem r hx))
      simp [orchestrateAgentLoop, limitReached, hr, ihr]
      omega

theorem legacyAutoContinueLoop_none_all_completed (rs : List SessStatus) :
    ∀ it, (∀ r ∈ rs, r = SessStatus.completed) →
      (legacyAutoContinueLoop none it rs).1 = rs.length := by
  induction rs with
  | nil => intro it _; rfl
  | cons r rest ih =>
      intro it h
      have hr : r = SessStatus.completed := h r (List.mem_cons_self r rest)
      have ihr := ih (it + 1) (fun x hx => h x (List.mem_cons_of_mem r hx))
      simp [legacyAutoContinueLoop, limitReached, hr, ihr]

/-- C4 counterexample: with one completed session available, the CLI
`orchestrate_agent` loop and the legacy endpoint loop both run zero
sessions under `max_iterations = 0` but one session under `None`, so 0 and
None are not equivalent on those surfaces. -/
theorem C4_counterexample :
    orchestrateAgentLoop (some 0) 0 [SessStatus.completed] = 0 ∧
    orchestrateAgentLoop none 0 [SessStatus.completed] = 1 ∧
    (legacyAutoContinueLoop (some 0) 0 [SessStatus.completed]).1 = 0 ∧
    (legacyAutoContinueLoop none 0 [SessStatus.completed]).1 = 1 ∧
    orchestrateAgentLoop (some 0) 0 [SessStatus.completed] ≠
      orchestrateAgentLoop none 0 [SessStatus.completed] := by
  decide

/-- C4 amended: only `start_coding_sessions` normalizes, so there 0 and
None are interchangeable and both unlimited; on the `orchestrate_agent` and
legacy auto-continue surfaces `max_iterations = 0` means zero sessions
while only None means unlimited. -/
theorem C4_max_iterations_zero (inputs : List IterInput)
    (rs : List SessStatus) :
    start_coding_sessions (some 0) inputs =
      start_coding_sessions none inputs ∧
    orchestrateAgentLoop (some 0) 0 rs = 0 ∧
    (legacyAutoContinueLoop (some 0) 0 rs).1 = 0 ∧
    ((∀ r ∈ rs, r = SessStatus.completed) →
      orchestrateAgentLoop none 0 rs = rs.length ∧
      (legacyAutoContinueLoop none 0 rs).1 = rs.length) := by
  refine ⟨rfl, ?_, ?_, ?_⟩
  · cases rs <;> simp [orchestrateAgentLoop, limitReached]
  · cases rs <;> simp [legacyAutoContinueLoop, limitReached]
  · intro h
    exact ⟨orchestrateAgentLoop_none_all_completed rs 0 h,
      legacyAutoContinueLoop_none_all_completed rs 0 h⟩

/-- Witness for C4 at a concrete outcome stream. -/
theorem C4_max_iterations_zero_witness :
    start_coding_sessions (some 0)
        [⟨false, false, SessStatus.completed, true⟩] =
      start_coding_sessions none
        [⟨false, false, SessStatus.completed, true⟩] ∧
    orchestrateAgentLoop none 0
      [SessStatus.completed, SessStatus.completed] = 2 ∧
    (legacyAutoContinueLoop none 0
      [SessStatus.completed, SessStatus.completed]).1 = 2 := by
  have h := C4_max_iterations_zero
    [⟨false, false, SessStatus.completed, true⟩]
    [SessStatus.completed, SessStatus.completed]
  exact ⟨h.1, h.2.2.2 (by decide)⟩

theorem codingLoopGo_no_autoContinueStopped (mi : Option Nat)
    (inputs : List IterInput) : ∀ it reason,
    LoopEvent.autoContinueStopped reason ∉ (codingLoopGo mi it inputs).events := by
  induction inputs with
  | nil => intro it reason; simp [codingLoopGo]
  | cons inp rest ih =>
      intro it reason
      have hrec := ih (it + 1) reason
      unfold codingLoopGo
      split_ifs <;> simp_all [List.mem_append]

/-- C5 counterexample: with the flag set while session 1 runs, the loop
run is `⟨1, [sessionStarted 1], some false⟩` — the session completed, no
second session started, the flag was cleared — yet no
`auto_continue_stopped` event is in the published events, refuting the
publication part of the claim. -/
theorem C5_counterexample :
    start_coding_sessions none
        [⟨false, false, SessStatus.completed, false⟩,
         ⟨true, false, SessStatus.completed, false⟩] =
      ⟨1, [LoopEvent.sessionStarted 1], some false⟩ ∧
    ∀ reason, LoopEvent.autoContinueStopped reason ∉
      (start_coding_sessions none
        [⟨false, false, SessStatus.completed, false⟩,
         ⟨true, false, SessStatus.completed, false⟩]).events := by
  refine ⟨by decide, ?_⟩
  intro reason
  have h : (start_coding_sessions none
      [⟨false, false, SessStatus.completed, false⟩,
       ⟨true, false, SessStatus.completed, false⟩]).events
      = [LoopEvent.sessionStarted 1] := by decide
  rw [h]
  simp

/-- C5 amended: a set `stop_after_current` flag is observed only at the
top of a loop iteration, where the loop starts no session, publishes
nothing, and writes the flag back to false; a running session therefore
always finishes normally before the flag takes effect, and no
`auto_continue_stopped` event is ever published by this loop (that event
is emitted only by the legacy auto-continue endpoint, for its
max-iterations/error/interrupt stops). -/
theorem C5_stop_after_current (mi : Option Nat) (it : Nat)
    (inp : IterInput) (rest : List IterInput) :
    (limitReached mi it = false → inp.stopFlag = true →
      codingLoopGo mi it (inp :: rest) = ⟨0, [], some false⟩) ∧
    (limitReached mi it = false → inp.stopFlag = false →
      inp.epicsDone = false → inp.result = SessStatus.completed →
      inp.tasksDone = false →
      codingLoopGo mi it (inp :: rest) =
        ⟨1 + (codingLoopGo mi (it + 1) rest).sessionsStarted,
          ((if 1 < it + 1 then [LoopEvent.autoContinueDelay] else [])
            ++ [LoopEvent.sessionStarted (it + 1)])
            ++ (codingLoopGo mi (it + 1) rest).events,
          (codingLoopGo mi (it + 1) rest).flagWrite⟩) ∧
    (∀ reason, LoopEvent.autoContinueStopped reason ∉
      (codingLoopGo mi it (inp :: rest)).events) := by
  refine ⟨?_, ?_, ?_⟩
  · intro hlim hflag
    simp [codingLoopGo, hlim, hflag]
  · intro hlim hflag hepics hres htasks
    simp [codingLoopGo, hlim, hflag, hepics, hres, htasks]
  · intro reason
    exact codingLoopGo_no_autoContinueStopped mi (inp :: rest) it reason

/-- Witness for C5: the flag set while iteration 1 runs stops the loop at
iteration 2 with the flag cleared, and the session-1 completion is the one
session run. -/
theorem C5_stop_after_current_witness :
    codingLoopGo none 1 [⟨true, false, SessStatus.completed, false⟩]
        = ⟨0, [], some false⟩ ∧
    codingLoopGo none 0
        [⟨false, false, SessStatus.completed, false⟩,
         ⟨true, false, SessStatus.completed, false⟩] =
      ⟨1 + (codingLoopGo none 1
          [⟨true, false, SessStatus.completed, false⟩]).sessionsStarted,
        ((if 1 < 0 + 1 then [LoopEvent.autoContinueDelay] else [])
          ++ [LoopEvent.sessionStarted (0 + 1)])
          ++ (codingLoopGo none 1
            [⟨true, false, SessStatus.completed, false⟩]).events,
        (codingLoopGo none 1
          [⟨true, false, SessStatus.completed, false⟩]).flagWrite⟩ ∧
    (LoopEvent.autoContinueStopped "stop_after_current") ∉
      (codingLoopGo none 0
        [⟨false, false, SessStatus.completed, false⟩,
         ⟨true, false, SessStatus.completed, false⟩]).events := by
  have h1 := C5_stop_after_current none 1
    (⟨true, false, SessStatus.completed, false⟩ : IterInput)
    ([] : List IterInput)
  have h2 := C5_stop_after_current none 0
    (⟨false, false, SessStatus.completed, false⟩ : IterInput)
    [⟨true, false, SessStatus.completed, false⟩]
  exact ⟨h1.1 rfl rfl, h2.2.1 rfl rfl rfl rfl rfl,
    h2.2.2 "stop_after_current"⟩

/-! ## Post-session hooks (orchestrator.py lines 800-806) -/

/-- The two analyses `start_session` may run after the agent session
returns. -/
inductive PostAction
  | quickQualityCheck
  | testCoverageAnalysis
deriving Repr, DecidableEq

/-- The gating at orchestrator.py lines 800-806: the quick quality check
runs when the session is not an initializer (`if not is_initializer`), and
the test-coverage analysis runs when it is an initializer whose
run-agent-session status is not `error`
(`if is_initializer and status != "error"`). -/
def postSessionActions (isInitializer : Bool) (status : String) :
    List PostAction :=
  (if !isInitializer then [PostAction.quickQualityCheck] else [])
    ++ (if isInitializer && status != "error"
        then [PostAction.testCoverageAnalysis] else [])

/-- C6: the quick quality check runs exactly for non-initializer sessions,
and the test-coverage analysis runs exactly for initializer sessions whose
status is not `error`. -/
theorem C6_post_session_hooks (isInitializer : Bool) (status : String) :
    (PostAction.quickQualityCheck ∈ postSessionActions isInitializer status
      ↔ isInitializer = false) ∧
    (PostAction.testCoverageAnalysis ∈ postSessionActions isInitializer status
      ↔ isInitializer = true ∧ status ≠ "error") := by
  cases isInitializer <;>
    by_cases h : status = "error" <;>
      simp [postSessionActions, h]

/-! ## Theme bucketing and proposal emission
(prompt_improvement_analyzer.py lines 446-515 and 618-691) -/

/-- Case-insensitive raw substring check: Python `needle in haystack` after
both sides are lowercase. -/
def strContainsSub (haystack needle : String) : Bool :=
  haystack.data.tails.any (fun t => needle.data.isPrefixOf t)

/-- The fixed taxonomy of `_aggregate_recommendations`
(prompt_improvement_analyzer.py lines 448-457). -/
def theme_keywords : List (String × List String) :=
  [("browser_verification",
      ["browser", "screenshot", "playwright", "visual", "ui", "verify"]),
   ("error_handling", ["error", "recovery", "debugging", "fix", "retry"]),
   ("git_commits", ["commit", "git", "message", "version control"]),
   ("testing", ["test", "testing", "unit test", "e2e", "coverage"]),
   ("docker", ["docker", "bash_docker", "container"]),
   ("parallel_execution", ["parallel", "concurrent", "independent"]),
   ("task_management", ["task", "epic", "checklist", "workflow"]),
   ("documentation", ["comment", "documentation", "readme"])]

/-- The themes one recommendation string is bucketed into
(prompt_improvement_analyzer.py lines 476-486): every taxonomy theme one
of whose keywords occurs in the lowercased recommendation, or `general`
when none matches. -/
def matchedThemes (s : String) : List String :=
  let sLower := s.toLower
  let matched := (theme_keywords.filter
    (fun tk => tk.2.any (fun kw => strContainsSub sLower kw))).map Prod.fst
  if matched.isEmpty then ["general"] else matched

/-- All theme names that can appear as buckets. -/
def allThemes : List String := theme_keywords.map Prod.fst ++ ["general"]

/-- Total mention frequency of a theme over the recommendation strings of
all deep reviews in the window: the dict entry `frequency` is incremented
once per (recommendation, matching theme) pair
(prompt_improvement_analyzer.py lines 489-491). -/
def themeFrequency (recs : List String) (theme : String) : Nat :=
  recs.countP (fun s => (matchedThemes s).contains theme)

/-- The themes present in the aggregated dict (those mentioned at least
once); Python dict insertion order is abstracted to taxonomy order. -/
def aggregatedThemes (recs : List String) : List String :=
  allThemes.filter (fun t => 1 ≤ themeFrequency recs t)

/-- The `sorted(..., key=frequency, reverse=True)` step of
`_generate_proposals_from_deep_reviews`
(prompt_improvement_analyzer.py lines 605-609). -/
def sortedThemes (recs : List String) : List String :=
  (aggregatedThemes recs).insertionSort
    (fun a b => themeFrequency recs b ≤ themeFrequency recs a)

/-- The themes for which one proposal each is emitted: the loop at
prompt_improvement_analyzer.py lines 618-688 skips a theme when
`frequency < 2` and appends exactly one proposal otherwise. -/
def emittedProposalThemes (recs : List String) : List String :=
  (sortedThemes recs).filter (fun t => 2 ≤ themeFrequency recs t)

theorem mem_matchedThemes (s theme : String) :
    theme ∈ matchedThemes s ↔
      (∃ kws, (theme, kws) ∈ theme_keywords ∧
        kws.any (fun kw => strContainsSub s.toLower kw) = true) ∨
      (theme = "general" ∧ ∀ p ∈ theme_keywords,
        p.2.any (fun kw => strContainsSub s.toLower kw) = false) := by
  unfold matchedThemes
  simp only
  by_cases h : ((theme_keywords.filter
      (fun tk => tk.2.any (fun kw => strContainsSub s.toLower kw))).map
        Prod.fst).isEmpty
  · rw [if_pos h]
    rw [List.isEmpty_iff, List.map_eq_nil_iff, List.filter_eq_nil_iff] at h
    constructor
    · intro hmem
      have hgen : theme = "general" := by simpa using hmem
      refine Or.inr ⟨hgen, ?_⟩
      intro p hp
      simpa using h p hp
    · intro hrhs
      rcases hrhs with ⟨kws, hmem, hany⟩ | ⟨hgen, _⟩
      · exact absurd hany (by simpa using h (theme, kws) hmem)
      · simp [hgen]
  · rw [if_neg h]
    constructor
    · intro hmem
      rcases List.mem_map.mp hmem with ⟨p, hpf, hfst⟩
      rcases List.mem_filter.mp hpf with ⟨hpk, hqp⟩
      rcases p with ⟨t, kws⟩
      cases hfst
      exact Or.inl ⟨kws, hpk, hqp⟩
    · intro hrhs
      rcases hrhs with ⟨kws, hmem, hany⟩ | ⟨hgen, hall⟩
      · exact List.mem_map.mpr
          ⟨(theme, kws), List.mem_filter.mpr ⟨hmem, hany⟩, rfl⟩
      · exfalso
        apply h
        rw [List.isEmpty_iff, List.map_eq_nil_iff, List.filter_eq_nil_iff]
        intro p hp
        simp [hall p hp]

theorem matchedThemes_sub_allThemes (s theme : String)
    (h : theme ∈ matchedThemes s) : theme ∈ allThemes := by
  rcases (mem_matchedThemes s theme).mp h with ⟨kws, hmem, _⟩ | ⟨hgen, _⟩
  · exact List.mem_append.mpr
      (Or.inl (List.mem_map.mpr ⟨(theme, kws), hmem, rfl⟩))
  · subst hgen
    simp [allThemes]

theorem mem_allThemes_of_freq_pos (recs : List String) (theme : String)
    (h : 1 ≤ themeFrequency recs theme) : theme ∈ allThemes := by
  unfold themeFrequency at h
  have hpos : 0 < recs.countP (fun s => (matchedThemes s).contains theme) := h
  rcases List.countP_pos_iff.mp hpos with ⟨s, _, hs⟩
  have hmem : theme ∈ matchedThemes s := List.elem_iff.mp hs
  exact matchedThemes_sub_allThemes s theme hmem

theorem allThemes_nodup : allThemes.Nodup := by decide

theorem emittedProposalThemes_nodup (recs : List String) :
    (emittedProposalThemes recs).Nodup := by
  have dagg : (aggregatedThemes recs).Nodup := allThemes_nodup.filter _
  have hperm := List.perm_insertionSort
    (fun a b => themeFrequency recs b ≤ themeFrequency recs a)
    (aggregatedThemes recs)
  have dsort : (sortedThemes recs).Nodup := hperm.symm.nodup dagg
  exact dsort.filter _

theorem mem_sortedThemes (recs : List String) (theme : String) :
    theme ∈ sortedThemes recs ↔ theme ∈ aggregatedThemes recs :=
  (List.perm_insertionSort
    (fun a b => themeFrequency recs b ≤ themeFrequency recs a)
    (aggregatedThemes recs)).mem_iff

/-- C7: each recommendation is bucketed into exactly the taxonomy themes
one of whose keywords occurs in it (case-insensitively), or into `general`
when none matches; and the themes receiving one emitted proposal each are
exactly those with total mention frequency at least 2. -/
theorem C7_bucketing_and_emission (recs : List String) (s theme : String) :
    (theme ∈ matchedThemes s ↔
      (∃ kws, (theme, kws) ∈ theme_keywords ∧
        kws.any (fun kw => strContainsSub s.toLower kw) = true) ∨
      (theme = "general" ∧ ∀ p ∈ theme_keywords,
        p.2.any (fun kw => strContainsSub s.toLower kw) = false)) ∧
    (theme ∈ emittedProposalThemes recs ↔ 2 ≤ themeFrequency recs theme) ∧
    ((emittedProposalThemes recs).count theme =
      if 2 ≤ themeFrequency recs theme then 1 else 0) := by
  have hmem : theme ∈ emittedProposalThemes recs ↔
      2 ≤ themeFrequency recs theme := by
    unfold emittedProposalThemes
    rw [List.mem_filter]
    constructor
    · intro ⟨_, hf⟩
      simpa using hf
    · intro hf
      refine ⟨?_, by simpa using hf⟩
      rw [mem_sortedThemes]
      unfold aggregatedThemes
      rw [List.mem_filter]
      exact ⟨mem_allThemes_of_freq_pos recs theme (by omega),
        by simp; omega⟩
  refine ⟨mem_matchedThemes s theme, hmem, ?_⟩
  by_cases hf : 2 ≤ themeFrequency recs theme
  · rw [if_pos hf]
    exact List.count_eq_one_of_mem (emittedProposalThemes_nodup recs)
      (hmem.mpr hf)
  · rw [if_neg hf]
    exact List.count_eq_zero_of_not_mem (fun hc => hf (hmem.mp hc))

/-! ## Apply-proposal route (api/prompt_improvements_routes.py lines
567-620) -/

/-- Client-visible outcome of the apply-proposal route: 404 when the
proposal does not exist, the 400 state-violation response when it is not
`accepted`, or the success response. -/
inductive ApplyOutcome
  | notFound
  | mustBeAccepted
  | applied
deriving Repr, DecidableEq

/-- Proposal store restricted to what the route reads: proposal id mapped
to its status string. -/
def lookupStatus (props : List (Nat × String)) (pid : Nat) : Option String :=
  (props.find? (fun p => p.1 == pid)).map Prod.snd

/-- The store call `db.update_prompt_proposal_status` as the route issues
it: set the
status of the targeted proposal. -/
def setStatus (props : List (Nat × String)) (pid : Nat) (st : String) :
    List (Nat × String) :=
  props.map (fun p => if p.1 == pid then (p.1, st) else p)

/-- The route `apply_proposal` (api/prompt_improvements_routes.py lines
567-620): 404 when the proposal is missing; the 400 must-be-accepted
response when its status is not `accepted`; otherwise mark it
`implemented`. -/
def apply_proposal (props : List (Nat × String)) (pid : Nat) :
    ApplyOutcome × List (Nat × String) :=
  match lookupStatus props pid with
  | none => (ApplyOutcome.notFound, props)
  | some st =>
      if st ≠ "accepted" then (ApplyOutcome.mustBeAccepted, props)
      else (ApplyOutcome.applied, setStatus props pid "implemented")

theorem lookupStatus_setStatus (props : List (Nat × String)) (pid : Nat)
    (st : String) (h : (lookupStatus props pid).isSome) :
    lookupStatus (setStatus props pid st) pid = some st := by
  induction props with
  | nil => simp [lookupStatus] at h
  | cons p rest ih =>
      by_cases hp : p.1 = pid
      · simp [lookupStatus, setStatus, hp]
      · have hne : (p.1 == pid) = false := by simpa using hp
        simp only [lookupStatus, setStatus, List.map_cons, List.find?] at *
        rw [if_neg (by simpa using hp)]
        simp only [hne] at *
        simpa [lookupStatus, setStatus] using ih (by simpa using h)

/-- C8: the route answers not-found exactly when the proposal is absent,
the state-violation response exactly when its status is not `accepted`,
and on an accepted proposal it succeeds and stores status `implemented`. -/
theorem C8_apply_proposal (props : List (Nat × String)) (pid : Nat) :
    (lookupStatus props pid = none →
      apply_proposal props pid = (ApplyOutcome.notFound, props)) ∧
    (∀ st, lookupStatus props pid = some st →
      ((apply_proposal props pid).1 = ApplyOutcome.mustBeAccepted ↔
        st ≠ "accepted") ∧
      (st ≠ "accepted" → (apply_proposal props pid).2 = props)) ∧
    (lookupStatus props pid = some "accepted" →
      (apply_proposal props pid).1 = ApplyOutcome.applied ∧
      lookupStatus (apply_proposal props pid).2 pid = some "implemented") := by
  refine ⟨?_, ?_, ?_⟩
  · intro h
    simp [apply_proposal, h]
  · intro st h
    constructor
    · by_cases hst : st = "accepted" <;> simp [apply_proposal, h, hst]
    · intro hst
      simp [apply_proposal, h, hst]
  · intro h
    refine ⟨by simp [apply_proposal, h], ?_⟩
    have hsome : (lookupStatus props pid).isSome = true := by
      rw [h]; rfl
    simp [apply_proposal, h]
    exact lookupStatus_setStatus props pid "implemented" hsome

/-- Witness for C8 on a concrete three-proposal store. -/
theorem C8_apply_proposal_witness :
    apply_proposal [(1, "accepted"), (2, "proposed")] 3
      = (ApplyOutcome.notFound, [(1, "accepted"), (2, "proposed")]) ∧
    (apply_proposal [(1, "accepted"), (2, "proposed")] 2).1
      = ApplyOutcome.mustBeAccepted ∧
    (apply_proposal [(1, "accepted"), (2, "proposed")] 1).1
      = ApplyOutcome.applied ∧
    lookupStatus (apply_proposal [(1, "accepted"), (2, "proposed")] 1).2 1
      = some "implemented" := by
  have h3 := C8_apply_proposal [(1, "accepted"), (2, "proposed")] 3
  have h2 := C8_apply_proposal [(1, "accepted"), (2, "proposed")] 2
  have h1 := C8_apply_proposal [(1, "accepted"), (2, "proposed")] 1
  refine ⟨h3.1 (by decide), ?_, (h1.2.2 (by decide)).1, (h1.2.2 (by decide)).2⟩
  exact ((h2.2.1 "proposed" (by decide)).1).mpr (by decide)

/-! ## Exception handling in start_session (orchestrator.py lines
759-857) -/

/-- How the session-execution phase inside the try block of
`start_session` can end: `run_agent_session` returned a status and
response, a `KeyboardInterrupt` was raised, or some other exception with a
message was raised. -/
inductive ExecOutcome
  | finished (status : String) (response : String)
  | keyboardInterrupt
  | exception (message : String)
deriving Repr, DecidableEq

/-- The terminal record `start_session` writes and returns for the
session. -/
structure SessionOutcome where
  status : String
  errorMessage : Option String
  interruptionReason : Option String
deriving Repr, DecidableEq

/-- Classification and handlers at orchestrator.py lines 788-857: a
returned status `error` is marked `error` with the response as message;
any other returned status is marked `completed`; the `KeyboardInterrupt`
handler marks `interrupted` with reason `User interrupted`; the catch-all
`Exception` handler marks `error` with the message and deliberately does
not re-raise.  The `Except` return type records whether anything
propagates to the caller. -/
def startSessionClassify (outcome : ExecOutcome) :
    Except String SessionOutcome :=
  match outcome with
  | ExecOutcome.finished st resp =>
      if st = "error" then Except.ok ⟨"error", some resp, none⟩
      else Except.ok ⟨"completed", none, none⟩
  | ExecOutcome.keyboardInterrupt =>
      Except.ok ⟨"interrupted", none, some "User interrupted"⟩
  | ExecOutcome.exception msg =>
      Except.ok ⟨"error", some msg, none⟩

/-- C9: after the session row exists, every execution outcome produces a
returned terminal record rather than a propagated exception; keyboard
interrupts land on `interrupted` and other exceptions land on `error`
carrying the message. -/
theorem C9_no_exception_propagation (outcome : ExecOutcome) :
    (∃ r, startSessionClassify outcome = Except.ok r ∧
      (r.status = "completed" ∨ r.status = "error" ∨
        r.status = "interrupted")) ∧
    (∀ msg, outcome = ExecOutcome.exception msg →
      startSessionClassify outcome = Except.ok ⟨"error", some msg, none⟩) ∧
    (outcome = ExecOutcome.keyboardInterrupt →
      startSessionClassify outcome =
        Except.ok ⟨"interrupted", none, some "User interrupted"⟩) := by
  refine ⟨?_, ?_, ?_⟩
  · cases outcome with
    | finished st resp =>
        by_cases h : st = "error"
        · exact ⟨⟨"error", some resp, none⟩,
            by simp [startSessionClassify, h], Or.inr (Or.inl rfl)⟩
        · exact ⟨⟨"completed", none, none⟩,
            by simp [startSessionClassify, h], Or.inl rfl⟩
    | keyboardInterrupt =>
        exact ⟨⟨"interrupted", none, some "User interrupted"⟩, rfl,
          Or.inr (Or.inr rfl)⟩
    | exception msg =>
        exact ⟨⟨"error", some msg, none⟩, rfl, Or.inr (Or.inl rfl)⟩
  · intro msg h
    subst h
    rfl
  · intro h
    subst h
    rfl

/-- Witness for C9 at a concrete exception and a keyboard interrupt. -/
theorem C9_no_exception_propagation_witness :
    startSessionClassify (ExecOutcome.exception "sandbox start failed")
      = Except.ok ⟨"error", some "sandbox start failed", none⟩ ∧
    startSessionClassify ExecOutcome.keyboardInterrupt
      = Except.ok ⟨"interrupted", none, some "User interrupted"⟩ := by
  exact ⟨(C9_no_exception_propagation
      (ExecOutcome.exception "sandbox start failed")).2.1
      "sandbox start failed" rfl,
    (C9_no_exception_propagation ExecOutcome.keyboardInterrupt).2.2 rfl⟩

/-! ## stop_session (orchestrator.py lines 877-904) -/

/-- A registered in-memory session manager; only the id it is keyed under
and its `interrupted` flag matter to `stop_session`. -/
structure ManagerEntry where
  sessionId : String
  interrupted : Bool
deriving Repr, DecidableEq

/-- One `db.end_session` write: target session, status value, interruption
reason. -/
structure EndSessionCall where
  sessionId : String
  status : String
  reason : String
deriving Repr, DecidableEq

/-- The method `AgentOrchestrator.stop_session` (orchestrator.py lines
877-904):
when the id is in the in-memory registry, set that registered manager
interrupted
flag, write `interrupted` with the reason, and return True; otherwise
return False without touching the database. -/
def stop_session (managers : List ManagerEntry) (sid : String)
    (reason : String) :
    Bool × List ManagerEntry × List EndSessionCall :=
  if managers.any (fun m => m.sessionId == sid) then
    (true,
      managers.map (fun m =>
        if m.sessionId == sid then { m with interrupted := true } else m),
      [⟨sid, "interrupted", reason⟩])
  else (false, managers, [])

/-- C10: stop_session acts only on sessions in the in-memory registry:
an unregistered id returns False with no registry change and no database
write, while a registered id returns True, flags that manager interrupted,
and issues exactly one write marking the session interrupted with the
given reason. -/
theorem C10_stop_session (managers : List ManagerEntry) (sid reason : String) :
    ((∀ m ∈ managers, m.sessionId ≠ sid) →
      stop_session managers sid reason = (false, managers, [])) ∧
    ((∃ m ∈ managers, m.sessionId = sid) →
      (stop_session managers sid reason).1 = true ∧
      (stop_session managers sid reason).2.2
        = [⟨sid, "interrupted", reason⟩] ∧
      ∀ m ∈ (stop_session managers sid reason).2.1,
        m.sessionId = sid → m.interrupted = true) := by
  constructor
  · intro h
    have hany : managers.any (fun m => m.sessionId == sid) = false := by
      rw [List.any_eq_false]
      intro m hm
      simpa using h m hm
    simp [stop_session, hany]
  · intro h
    have hany : managers.any (fun m => m.sessionId == sid) = true := by
      rw [List.any_eq_true]
      rcases h with ⟨m, hm, hid⟩
      exact ⟨m, hm, by simpa using hid⟩
    refine ⟨by simp [stop_session, hany], by simp [stop_session, hany], ?_⟩
    intro m hm hid
    simp only [stop_session, hany, if_true] at hm
    rcases List.mem_map.mp hm with ⟨m0, _, heq⟩
    by_cases h0 : m0.sessionId = sid
    · rw [if_pos (by simpa using h0)] at heq
      rw [← heq]
    · rw [if_neg (by simpa using h0)] at heq
      rw [← heq] at hid
      exact absurd hid h0

/-- Witness for C10 on a registry with one entry. -/
theorem C10_stop_session_witness :
    stop_session [⟨"a", false⟩] "b" "User requested stop"
      = (false, [⟨"a", false⟩], []) ∧
    ((stop_session [⟨"a", false⟩] "a" "User requested stop").1 = true ∧
      (stop_session [⟨"a", false⟩] "a" "User requested stop").2.2
        = [⟨"a", "interrupted", "User requested stop"⟩] ∧
      ∀ m ∈ (stop_session [⟨"a", false⟩] "a" "User requested stop").2.1,
        m.sessionId = "a" → m.interrupted = true) := by
  have h1 := C10_stop_session [⟨"a", false⟩] "b" "User requested stop"
  have h2 := C10_stop_session [⟨"a", false⟩] "a" "User requested stop"
  exact ⟨h1.1 (by decide), h2.2 ⟨⟨"a", false⟩, by decide, rfl⟩⟩

end YokeFlow
